import Mathlib

/-!
# SmartParking Flow — verification of the sensor simulator and query service

Shallow embedding of the repository's two logic-bearing modules:

* `sensores.py` — `ParkingSensorSimulator` (in-memory bay map, event
  generation, vehicle movement, aggregate status) and `KafkaPublisher`
  (boolean-outcome publish).
* `SmartParking Flow/app.py` — the Flask query service's pure response
  computations (`/api/health`, `/api/stats`, `/api/maintenance/low-battery`)
  over the persisted `bays` collection.

Python machine floats are modelled as rationals (`ℚ`); Python's `round`
(half-to-even, fixed decimal places) is `pyRound`; code paths that raise
(`ZeroDivisionError`, `KeyError`, `IndexError`, driver exceptions) are
modelled with `Option`.  Randomness (`random.choice`, `random.uniform`,
`random.randint`, the 10% battery coin) is passed in explicitly as
parameters, quantified over in the theorems.
-/

namespace SmartParking

/-- Round a rational to the nearest integer, ties to even — the rounding mode
of Python's builtin `round`. -/
def roundHalfEven (x : ℚ) : ℤ :=
  if x - ⌊x⌋ < 1/2 then ⌊x⌋
  else if 1/2 < x - ⌊x⌋ then ⌊x⌋ + 1
  else if ⌊x⌋ % 2 = 0 then ⌊x⌋ else ⌊x⌋ + 1

/-- Python's `round(x, n)`: fixed-point rounding to `n` decimal places. -/
def pyRound (x : ℚ) (n : ℕ) : ℚ := (roundHalfEven (x * 10 ^ n) : ℚ) / 10 ^ n

theorem roundHalfEven_eq_floor_or_succ (x : ℚ) :
    roundHalfEven x = ⌊x⌋ ∨ roundHalfEven x = ⌊x⌋ + 1 := by
  unfold roundHalfEven
  split_ifs <;> simp

theorem roundHalfEven_le (x : ℚ) : (roundHalfEven x : ℚ) ≤ x + 1 := by
  rcases roundHalfEven_eq_floor_or_succ x with h | h <;> rw [h] <;> push_cast
  · linarith [Int.floor_le x]
  · linarith [Int.floor_le x]

theorem le_roundHalfEven (x : ℚ) : x - 1 ≤ (roundHalfEven x : ℚ) := by
  rcases roundHalfEven_eq_floor_or_succ x with h | h <;> rw [h] <;> push_cast
  · linarith [Int.sub_one_lt_floor x]
  · linarith [Int.sub_one_lt_floor x]

theorem pyRound_one_le (x : ℚ) : pyRound x 1 ≤ x + 1/10 := by
  unfold pyRound
  have h := roundHalfEven_le (x * 10 ^ 1)
  rw [div_le_iff₀ (by norm_num : (0:ℚ) < 10 ^ 1)]
  norm_num at h ⊢
  linarith

theorem le_pyRound_one (x : ℚ) : x - 1/10 ≤ pyRound x 1 := by
  unfold pyRound
  have h := le_roundHalfEven (x * 10 ^ 1)
  rw [le_div_iff₀ (by norm_num : (0:ℚ) < 10 ^ 1)]
  norm_num at h ⊢
  linarith

/-! ## Sensor simulator (`sensores.py`, `ParkingSensorSimulator`) -/

/-- One entry of the in-memory bay dict built by `_initialize_bays`. -/
structure Bay where
  bay_id : String
  parking_id : String
  level : String
  occupied : Bool
  temperature_c : ℚ
  battery_pct : ℤ
deriving Repr, DecidableEq

/-- The simulator's mutable state: `self.bays`, an insertion-ordered dict
keyed by `bay_id`, modelled as a list of records (the key is the record's
`bay_id` field, unique by dict semantics). -/
structure SimState where
  bays : List Bay
deriving Repr, DecidableEq

/-- Python-dict insertion: overwrite in place when the key exists, else
append.  (`_initialize_bays` only ever assigns `bays[bay_id] = ...`.) -/
def dictInsert (bays : List Bay) (b : Bay) : List Bay :=
  if bays.any (fun x => x.bay_id = b.bay_id) then
    bays.map (fun x => if x.bay_id = b.bay_id then b else x)
  else bays ++ [b]

/-- Zero-padded 3-digit field of the f-string `f"{bay:03d}"`. -/
def pad3 (n : ℕ) : String :=
  if n < 10 then s!"00{n}" else if n < 100 then s!"0{n}" else toString n

/-- `bay_id = f"L{level}-A-{bay:03d}"`. -/
def mkBayId (level bay : ℕ) : String := s!"L{level}-A-{pad3 bay}"

/-- `_initialize_bays`: for `level` in `1..levels`, `bay` in
`1..bays_per_level`, insert a fresh bay record.  The random draws
(`random.choice([True, False])`, `round(random.uniform(18.0, 28.0), 1)`,
`random.randint(60, 100)`) are supplied as functions of `(level, bay)`. -/
def initialize_bays (parking_id : String) (levels bays_per_level : ℕ)
    (occR : ℕ → ℕ → Bool) (tR : ℕ → ℕ → ℚ) (bR : ℕ → ℕ → ℤ) : List Bay :=
  ((List.range levels).flatMap (fun li =>
    (List.range bays_per_level).map (fun bi =>
      { bay_id := mkBayId (li + 1) (bi + 1)
        parking_id := parking_id
        level := s!"L{li + 1}"
        occupied := occR (li + 1) (bi + 1)
        temperature_c := pyRound (tR (li + 1) (bi + 1)) 1
        battery_pct := bR (li + 1) (bi + 1) }))).foldl dictInsert []

/-- Simulator construction: `__init__` stores the parameters and calls
`_initialize_bays`. -/
def mkSimulator (parking_id : String) (levels bays_per_level : ℕ)
    (occR : ℕ → ℕ → Bool) (tR : ℕ → ℕ → ℚ) (bR : ℕ → ℕ → ℤ) : SimState :=
  { bays := initialize_bays parking_id levels bays_per_level occR tR bR }

/-- `metrics` sub-document of a generated event. -/
structure Metrics where
  temperature_c : ℚ
  battery_pct : ℤ
deriving Repr, DecidableEq

/-- The event document returned by `generate_event`. -/
structure Event where
  bay_id : String
  parking_id : String
  level : String
  occupied : Bool
  last_event_ts : String
  metrics : Metrics
  updated_at : String
deriving Repr, DecidableEq

/-- In-place update of the dict entry for `bid` (a Python mutation of
`self.bays[bid]`'s fields). -/
def updateBay (bays : List Bay) (bid : String) (f : Bay → Bay) : List Bay :=
  bays.map (fun b => if b.bay_id = bid then f b else b)

/-- `generate_event(bay_id)`: looks the bay up (`KeyError` → `none`), drifts
`temperature_c` by `δ = random.uniform(-0.5, 0.5)` with `round(·, 1)` then
clamps to `[15.0, 35.0]`; with the 10% coin `decr` decrements `battery_pct`
floored at 20; snapshots the mutated record into an event.  Returns the
event and the post-mutation state. -/
def generate_event (s : SimState) (bid : String) (δ : ℚ) (decr : Bool)
    (now : String) : Option (Event × SimState) :=
  match s.bays.find? (fun b => b.bay_id = bid) with
  | none => none
  | some bay =>
    let t1 := max 15 (min 35 (pyRound (bay.temperature_c + δ) 1))
    let b1 := if decr then max 20 (bay.battery_pct - 1) else bay.battery_pct
    let bays1 := updateBay s.bays bid
      (fun b => { b with temperature_c := t1, battery_pct := b1 })
    some ({ bay_id := bay.bay_id
            parking_id := bay.parking_id
            level := bay.level
            occupied := bay.occupied
            last_event_ts := now
            metrics := { temperature_c := t1, battery_pct := b1 }
            updated_at := now },
          { bays := bays1 })

/-- `simulate_vehicle_movement()`: `random.choice(list(self.bays.keys()))`
(the random index is the parameter `idx`; an empty dict raises — `none`),
flips that bay's `occupied` flag, returns the chosen `bay_id`. -/
def simulate_vehicle_movement (s : SimState) (idx : ℕ) :
    Option (String × SimState) :=
  match (s.bays.map (fun b => b.bay_id))[idx]? with
  | none => none
  | some bid =>
    some (bid, { bays := updateBay s.bays bid
                   (fun b => { b with occupied := !b.occupied }) })

/-- Response of `get_parking_status`. -/
structure ParkingStatus where
  total_bays : ℕ
  occupied : ℕ
  free : ℕ
  occupancy_rate : ℚ
deriving Repr, DecidableEq

/-- `get_parking_status()`: totals over the in-memory bay set.  The division
`(occupied / total) * 100` is **unguarded** in the source, so an empty bay
set raises `ZeroDivisionError` — modelled as `none`. -/
def get_parking_status (s : SimState) : Option ParkingStatus :=
  let total := s.bays.length
  let occupied := (s.bays.filter (fun b => b.occupied)).length
  if total = 0 then none
  else some { total_bays := total
              occupied := occupied
              free := total - occupied
              occupancy_rate := pyRound ((occupied : ℚ) / (total : ℚ) * 100) 1 }

/-- One iteration's worth of state-mutating simulator calls, with the random
draws made explicit; used to quantify over reachable states. -/
inductive SimOp where
  | genEvent (bid : String) (δ : ℚ) (decr : Bool) (now : String)
  | vehicleMove (idx : ℕ)

/-- Apply one operation to the state (a raising call leaves no successor
state; the process has crashed, so we keep the state for the induction). -/
def applyOp (s : SimState) (op : SimOp) : SimState :=
  match op with
  | .genEvent bid δ decr now =>
    match generate_event s bid δ decr now with
    | none => s
    | some (_, s') => s'
  | .vehicleMove idx =>
    match simulate_vehicle_movement s idx with
    | none => s
    | some (_, s') => s'

/-- The state after a sequence of simulator operations. -/
def reach (s : SimState) (ops : List SimOp) : SimState := ops.foldl applyOp s

/-! ## Event publisher (`sensores.py`, `KafkaPublisher.publish_event`) -/

/-- Outcome of `producer.send(...).get(timeout=10)`: either the broker
acknowledged within the timeout (record metadata), or a `KafkaError` was
raised (broker/network failure, including `KafkaTimeoutError`). -/
inductive KafkaOutcome where
  | ack (metadata : String)
  | kafkaError (msg : String)
deriving Repr, DecidableEq

/-- `publish_event(event)`: `try: future.get(timeout=10); return True`
`except KafkaError: print(...); return False`. -/
def publish_event (outcome : KafkaOutcome) : Bool :=
  match outcome with
  | .ack _ => true
  | .kafkaError _ => false

/-! ## Query service (`SmartParking Flow/app.py`)

The store is the `bays` collection: one document per bay.  The test
insert in `pruebas.py` shows documents may lack the `metrics`
sub-document, so the two metric fields are optional; `level` and
`occupied` are present on every document the system writes. -/

/-- A persisted bay document (fields the endpoints consult). -/
structure BayDoc where
  bay_id : String
  level : String
  occupied : Bool
  temperature_c : Option ℚ
  battery_pct : Option ℤ
deriving Repr, DecidableEq

/-- MongoDB `$avg` over a group: averages the values present, `null`
(`none`) when no document in the group carries the field. -/
def mongoAvg (xs : List ℚ) : Option ℚ :=
  if xs = [] then none else some (xs.sum / (xs.length : ℚ))

/-- The temperatures present in a document group. -/
def groupTemps (group : List BayDoc) : List ℚ :=
  group.filterMap (fun d => d.temperature_c)

/-- The battery values present in a document group, as rationals. -/
def groupBats (group : List BayDoc) : List ℚ :=
  group.filterMap (fun d => d.battery_pct.map (fun b => (b : ℚ)))

/-- Python truthiness applied by
`round(x, 1) if x else None`: `None` and `0`/`0.0` are falsy. -/
def pyTruthyRound1 (avg : Option ℚ) : Option ℚ :=
  match avg with
  | none => none
  | some a => if a = 0 then none else some (pyRound a 1)

/-- One element of the `levels` array of `/api/stats`. -/
structure LevelStats where
  level : String
  total : ℕ
  occupied : ℕ
  free : ℕ
  occupancy_rate : ℚ
  avg_temperature : Option ℚ
  avg_battery : Option ℚ
  low_battery_sensors : ℕ
deriving Repr, DecidableEq

/-- Aggregation-expression `$lt` of `$metrics.battery_pct` against 20 used
by the pipeline's `low_battery_count`: a missing field compares as BSON
null, which sorts below every number, so it satisfies `< 20`. -/
def aggBatteryLt20 (d : BayDoc) : Bool :=
  match d.battery_pct with
  | none => true
  | some b => b < 20

/-- The `$group` keys in the order `{"$sort": {"_id": 1}}` produces:
distinct `level` values, ascending. -/
def sortedLevelKeys (docs : List BayDoc) : List String :=
  List.insertionSort (fun a b => a ≤ b) (docs.map (fun d => d.level)).dedup

/-- The formatted per-level entry `get_stats` builds for group key `k`:
the `$group` accumulators over `docs` restricted to `level = k`, then the
Python post-processing (guarded rate, truthiness-guarded rounded averages). -/
def levelStatsFor (docs : List BayDoc) (k : String) : LevelStats :=
  let group := docs.filter (fun d => d.level = k)
  let total := group.length
  let occupied := (group.filter (fun d => d.occupied)).length
  let freeCount := (group.filter (fun d => !d.occupied)).length
  { level := k
    total := total
    occupied := occupied
    free := freeCount
    occupancy_rate :=
      if 0 < total then pyRound ((occupied : ℚ) / (total : ℚ) * 100) 2 else 0
    avg_temperature := pyTruthyRound1 (mongoAvg (groupTemps group))
    avg_battery := pyTruthyRound1 (mongoAvg (groupBats group))
    low_battery_sensors := (group.filter aggBatteryLt20).length }

/-- The `/api/stats` response body (success path). -/
structure StatsResponse where
  total : ℕ
  occupied : ℕ
  free : ℕ
  occupancy_rate : ℚ
  levels : List LevelStats
deriving Repr, DecidableEq

/-- `get_stats` success path: overall counts via `count_documents`, the
guarded overall rate, and the per-level aggregation pipeline. -/
def get_stats (docs : List BayDoc) : StatsResponse :=
  let total := docs.length
  let occupied := (docs.filter (fun d => d.occupied)).length
  { total := total
    occupied := occupied
    free := total - occupied
    occupancy_rate :=
      if 0 < total then pyRound ((occupied : ℚ) / (total : ℚ) * 100) 2 else 0
    levels := (sortedLevelKeys docs).map (levelStatsFor docs) }

/-- Query-language `$lt` filter `{"metrics.battery_pct": {"$lt": 20}}`:
documents missing the field do **not** match a query comparison. -/
def queryBatteryLt20 (d : BayDoc) : Bool :=
  match d.battery_pct with
  | none => false
  | some b => b < 20

/-- Sort key of `.sort('metrics.battery_pct', 1)`; every matched document
carries the field, the default only totalises the relation. -/
def batteryLe (a b : BayDoc) : Prop :=
  a.battery_pct.getD 0 ≤ b.battery_pct.getD 0

instance : DecidableRel batteryLe := fun a b => by
  unfold batteryLe; infer_instance

/-- The `low_battery_bays` query result: bays with `battery_pct < 20`
sorted ascending by battery. -/
def low_battery_bays (docs : List BayDoc) : List BayDoc :=
  List.insertionSort batteryLe (docs.filter queryBatteryLt20)

/-- The `/api/maintenance/low-battery` response body (success path). -/
structure LowBatteryResponse where
  total_count : ℕ
  urgent_count : ℕ
  high_priority_count : ℕ
  urgent : List BayDoc
  high_priority : List BayDoc
  threshold : ℤ
deriving Repr, DecidableEq

/-- `get_low_battery_bays` success path: the `$lt 20` query sorted
ascending, partitioned by the two Python list comprehensions. -/
def get_low_battery_bays (docs : List BayDoc) : LowBatteryResponse :=
  let lows := low_battery_bays docs
  let urgent := lows.filter (fun b => b.battery_pct.getD 0 < 10)
  let high := lows.filter
    (fun b => 10 ≤ b.battery_pct.getD 0 && b.battery_pct.getD 0 < 20)
  { total_count := lows.length
    urgent_count := urgent.length
    high_priority_count := high.length
    urgent := urgent
    high_priority := high
    threshold := 20 }

/-! ## Health check (`/api/health`) -/

/-- A live store connection as the handler sees it: each command either
succeeds or raises (driver exception → `none`). -/
structure StoreConn where
  ping : Option Unit
  baysCount : Option ℕ
  eventsCount : Option ℕ

/-- The health-check response: HTTP code, `status` field, and the two
count fields (absent on the unhealthy paths). -/
structure HealthResponse where
  code : ℕ
  status : String
  total_bays : Option ℕ
  total_events : Option ℕ
deriving Repr, DecidableEq

/-- `health_check()`: `db is None` → 503 unhealthy; otherwise `ping`, then
the two `count_documents` calls inside the `try`; any raise → 503
unhealthy; else 200 healthy with both counts. -/
def health_check (db : Option StoreConn) : HealthResponse :=
  match db with
  | none => { code := 503, status := "unhealthy",
              total_bays := none, total_events := none }
  | some c =>
    match c.ping with
    | none => { code := 503, status := "unhealthy",
                total_bays := none, total_events := none }
    | some _ =>
      match c.baysCount with
      | none => { code := 503, status := "unhealthy",
                  total_bays := none, total_events := none }
      | some nb =>
        match c.eventsCount with
        | none => { code := 503, status := "unhealthy",
                    total_bays := none, total_events := none }
        | some ne =>
          { code := 200, status := "healthy",
            total_bays := some nb, total_events := some ne }

/-! ## Simulator invariants -/

/-- Field bounds every in-memory bay record satisfies in any reachable
state: clamped temperature and the battery between its floor and its
initial maximum. -/
def BayBounds (b : Bay) : Prop :=
  15 ≤ b.temperature_c ∧ b.temperature_c ≤ 35 ∧
  20 ≤ b.battery_pct ∧ b.battery_pct ≤ 100

/-- All bays of a state satisfy `BayBounds`. -/
def StateBounds (s : SimState) : Prop := ∀ b ∈ s.bays, BayBounds b

/-- The battery floor alone (enough for the monotonicity claim). -/
def BatteryInv (s : SimState) : Prop := ∀ b ∈ s.bays, 20 ≤ b.battery_pct

theorem mem_dictInsert {l : List Bay} {b x : Bay} (h : x ∈ dictInsert l b) :
    x ∈ l ∨ x = b := by
  unfold dictInsert at h
  split_ifs at h with hc
  · rcases List.mem_map.mp h with ⟨y, hy, rfl⟩
    by_cases he : y.bay_id = b.bay_id
    · right; simp [he]
    · left; simpa [he] using hy
  · rcases List.mem_append.mp h with h | h
    · exact Or.inl h
    · right; simpa using h

theorem mem_foldl_dictInsert (L : List Bay) (init : List Bay) (x : Bay)
    (h : x ∈ L.foldl dictInsert init) : x ∈ init ∨ x ∈ L := by
  induction L generalizing init with
  | nil => exact Or.inl h
  | cons b tl ih =>
    rcases ih (dictInsert init b) h with h2 | h2
    · rcases mem_dictInsert h2 with h3 | h3
      · exact Or.inl h3
      · exact Or.inr (by simp [h3])
    · exact Or.inr (List.mem_cons_of_mem _ h2)

/-- Every record of the initial bay map was built from some level/bay pair
of random draws. -/
theorem mem_initialize_bays (pid : String) (levels bpl : ℕ)
    (occR : ℕ → ℕ → Bool) (tR : ℕ → ℕ → ℚ) (bR : ℕ → ℕ → ℤ) (x : Bay)
    (h : x ∈ initialize_bays pid levels bpl occR tR bR) :
    ∃ l b, x.temperature_c = pyRound (tR l b) 1 ∧ x.battery_pct = bR l b := by
  unfold initialize_bays at h
  rcases mem_foldl_dictInsert _ _ _ h with h2 | h2
  · cases h2
  · rcases List.mem_flatMap.mp h2 with ⟨li, _, hx⟩
    rcases List.mem_map.mp hx with ⟨bi, _, rfl⟩
    exact ⟨li + 1, bi + 1, rfl, rfl⟩

theorem mkSimulator_bounds (pid : String) (levels bpl : ℕ)
    (occR : ℕ → ℕ → Bool) (tR : ℕ → ℕ → ℚ) (bR : ℕ → ℕ → ℤ)
    (ht : ∀ l b, 18 ≤ tR l b ∧ tR l b ≤ 28)
    (hb : ∀ l b, 60 ≤ bR l b ∧ bR l b ≤ 100) :
    StateBounds (mkSimulator pid levels bpl occR tR bR) := by
  intro x hx
  obtain ⟨l, b, h1, h2⟩ := mem_initialize_bays pid levels bpl occR tR bR x hx
  obtain ⟨ht1, ht2⟩ := ht l b
  obtain ⟨hb1, hb2⟩ := hb l b
  have hlo := le_pyRound_one (tR l b)
  have hhi := pyRound_one_le (tR l b)
  exact ⟨by rw [h1]; linarith, by rw [h1]; linarith,
    by rw [h2]; linarith, by rw [h2]; linarith⟩

theorem mkSimulator_batteryInv (pid : String) (levels bpl : ℕ)
    (occR : ℕ → ℕ → Bool) (tR : ℕ → ℕ → ℚ) (bR : ℕ → ℕ → ℤ)
    (hb : ∀ l b, 60 ≤ bR l b ∧ bR l b ≤ 100) :
    BatteryInv (mkSimulator pid levels bpl occR tR bR) := by
  intro x hx
  obtain ⟨l, b, _, h2⟩ := mem_initialize_bays pid levels bpl occR tR bR x hx
  rw [h2]
  linarith [(hb l b).1]

theorem forall_mem_updateBay {P : Bay → Prop} (l : List Bay) (bid : String)
    (f : Bay → Bay) (hl : ∀ b ∈ l, P b)
    (hf : ∀ b ∈ l, b.bay_id = bid → P (f b)) :
    ∀ b ∈ updateBay l bid f, P b := by
  intro x hx
  rcases List.mem_map.mp hx with ⟨y, hy, rfl⟩
  by_cases he : y.bay_id = bid
  · simpa [he] using hf y hy he
  · simpa [he] using hl y hy

/-- The clamped temperature written by `generate_event` is inside
`[15, 35]` whatever the drift. -/
theorem clamp_temp_bounds (t δ : ℚ) :
    15 ≤ max 15 (min 35 (pyRound (t + δ) 1)) ∧
    max 15 (min 35 (pyRound (t + δ) 1)) ≤ 35 :=
  ⟨le_max_left _ _, max_le (by norm_num) (min_le_left _ _)⟩

/-- The battery written by `generate_event` stays within `[20, old]` (and
so within `[20, 100]`) whenever the old value is at least the floor. -/
theorem decr_battery_bounds (b : ℤ) (decr : Bool) (hb : 20 ≤ b) :
    20 ≤ (if decr then max 20 (b - 1) else b) ∧
    (if decr then max 20 (b - 1) else b) ≤ b := by
  cases decr <;> simp <;> omega

theorem generate_event_some_shape (s : SimState) (bid : String) (δ : ℚ)
    (decr : Bool) (now : String) (bay : Bay)
    (hfind : s.bays.find? (fun b => b.bay_id = bid) = some bay) :
    generate_event s bid δ decr now = some
      ({ bay_id := bay.bay_id, parking_id := bay.parking_id,
         level := bay.level, occupied := bay.occupied, last_event_ts := now,
         metrics :=
           { temperature_c := max 15 (min 35 (pyRound (bay.temperature_c + δ) 1))
             battery_pct := if decr then max 20 (bay.battery_pct - 1)
               else bay.battery_pct }
         updated_at := now },
       { bays := updateBay s.bays bid (fun b =>
           { b with
             temperature_c := max 15 (min 35 (pyRound (bay.temperature_c + δ) 1))
             battery_pct := if decr then max 20 (bay.battery_pct - 1)
               else bay.battery_pct }) }) := by
  unfold generate_event
  rw [hfind]

theorem generate_event_preserves_bounds (s : SimState) (bid : String) (δ : ℚ)
    (decr : Bool) (now : String) (r : Event × SimState)
    (h : generate_event s bid δ decr now = some r) (hs : StateBounds s) :
    (15 ≤ r.1.metrics.temperature_c ∧ r.1.metrics.temperature_c ≤ 35 ∧
     20 ≤ r.1.metrics.battery_pct ∧ r.1.metrics.battery_pct ≤ 100) ∧
    StateBounds r.2 := by
  cases hfind : s.bays.find? (fun b => b.bay_id = bid) with
  | none => rw [generate_event, hfind] at h; cases h
  | some bay =>
    rw [generate_event_some_shape s bid δ decr now bay hfind] at h
    obtain rfl := Option.some.inj h
    have hbay := hs bay (List.mem_of_find?_eq_some hfind)
    obtain ⟨hct1, hct2⟩ := clamp_temp_bounds bay.temperature_c δ
    obtain ⟨hcb1, hcb2⟩ := decr_battery_bounds bay.battery_pct decr hbay.2.2.1
    refine ⟨⟨hct1, hct2, hcb1, le_trans hcb2 hbay.2.2.2⟩, ?_⟩
    exact forall_mem_updateBay s.bays bid _ hs
      (fun b _ _ => ⟨hct1, hct2, hcb1, le_trans hcb2 hbay.2.2.2⟩)

theorem generate_event_preserves_batteryInv (s : SimState) (bid : String)
    (δ : ℚ) (decr : Bool) (now : String) (r : Event × SimState)
    (h : generate_event s bid δ decr now = some r) (hs : BatteryInv s) :
    BatteryInv r.2 := by
  cases hfind : s.bays.find? (fun b => b.bay_id = bid) with
  | none => rw [generate_event, hfind] at h; cases h
  | some bay =>
    rw [generate_event_some_shape s bid δ decr now bay hfind] at h
    obtain rfl := Option.some.inj h
    have hbay := hs bay (List.mem_of_find?_eq_some hfind)
    exact forall_mem_updateBay s.bays bid _ hs
      (fun b _ _ => (decr_battery_bounds bay.battery_pct decr hbay).1)

theorem vehicle_movement_some_shape (s : SimState) (idx : ℕ) (bid : String)
    (hg : (s.bays.map (fun b => b.bay_id))[idx]? = some bid) :
    simulate_vehicle_movement s idx = some
      (bid, { bays := updateBay s.bays bid
               (fun b => { b with occupied := !b.occupied }) }) := by
  unfold simulate_vehicle_movement
  rw [hg]

theorem vehicle_movement_preserves_bounds (s : SimState) (idx : ℕ)
    (r : String × SimState) (h : simulate_vehicle_movement s idx = some r)
    (hs : StateBounds s) : StateBounds r.2 := by
  cases hg : (s.bays.map (fun b => b.bay_id))[idx]? with
  | none => rw [simulate_vehicle_movement, hg] at h; cases h
  | some bid =>
    rw [vehicle_movement_some_shape s idx bid hg] at h
    obtain rfl := Option.some.inj h
    refine forall_mem_updateBay s.bays bid _ hs (fun b hb _ => ?_)
    exact hs b hb

theorem vehicle_movement_preserves_batteryInv (s : SimState) (idx : ℕ)
    (r : String × SimState) (h : simulate_vehicle_movement s idx = some r)
    (hs : BatteryInv s) : BatteryInv r.2 := by
  cases hg : (s.bays.map (fun b => b.bay_id))[idx]? with
  | none => rw [simulate_vehicle_movement, hg] at h; cases h
  | some bid =>
    rw [vehicle_movement_some_shape s idx bid hg] at h
    obtain rfl := Option.some.inj h
    refine forall_mem_updateBay s.bays bid _ hs (fun b hb _ => ?_)
    exact hs b hb

theorem applyOp_preserves_bounds (s : SimState) (op : SimOp)
    (hs : StateBounds s) : StateBounds (applyOp s op) := by
  cases op with
  | genEvent bid δ decr now =>
    simp only [applyOp]
    cases h : generate_event s bid δ decr now with
    | none => exact hs
    | some r =>
      obtain ⟨e, s2⟩ := r
      exact (generate_event_preserves_bounds s bid δ decr now (e, s2) h hs).2
  | vehicleMove idx =>
    simp only [applyOp]
    cases h : simulate_vehicle_movement s idx with
    | none => exact hs
    | some r =>
      obtain ⟨bid, s2⟩ := r
      exact vehicle_movement_preserves_bounds s idx (bid, s2) h hs

theorem applyOp_preserves_batteryInv (s : SimState) (op : SimOp)
    (hs : BatteryInv s) : BatteryInv (applyOp s op) := by
  cases op with
  | genEvent bid δ decr now =>
    simp only [applyOp]
    cases h : generate_event s bid δ decr now with
    | none => exact hs
    | some r =>
      obtain ⟨e, s2⟩ := r
      exact generate_event_preserves_batteryInv s bid δ decr now (e, s2) h hs
  | vehicleMove idx =>
    simp only [applyOp]
    cases h : simulate_vehicle_movement s idx with
    | none => exact hs
    | some r =>
      obtain ⟨bid, s2⟩ := r
      exact vehicle_movement_preserves_batteryInv s idx (bid, s2) h hs

theorem reach_preserves_bounds (s : SimState) (ops : List SimOp)
    (hs : StateBounds s) : StateBounds (reach s ops) := by
  induction ops generalizing s with
  | nil => exact hs
  | cons op tl ih => exact ih (applyOp s op) (applyOp_preserves_bounds s op hs)

theorem reach_preserves_batteryInv (s : SimState) (ops : List SimOp)
    (hs : BatteryInv s) : BatteryInv (reach s ops) := by
  induction ops generalizing s with
  | nil => exact hs
  | cons op tl ih => exact ih (applyOp s op) (applyOp_preserves_batteryInv s op hs)

/-! ## Key (dict) structure of the bay map -/

theorem updateBay_length (l : List Bay) (bid : String) (f : Bay → Bay) :
    (updateBay l bid f).length = l.length := by
  simp [updateBay]

theorem getElem_updateBay (l : List Bay) (bid : String) (f : Bay → Bay)
    (i : ℕ) (hi : i < l.length) (hi2 : i < (updateBay l bid f).length) :
    (updateBay l bid f)[i] = if l[i].bay_id = bid then f l[i] else l[i] := by
  simp [updateBay]

theorem updateBay_keys (l : List Bay) (bid : String) (f : Bay → Bay)
    (hf : ∀ b, (f b).bay_id = b.bay_id) :
    (updateBay l bid f).map (fun b => b.bay_id) = l.map (fun b => b.bay_id) := by
  unfold updateBay
  rw [List.map_map]
  apply List.map_congr_left
  intro x _
  by_cases he : x.bay_id = bid <;> simp [he, hf]

theorem dictInsert_keys_nodup (l : List Bay) (b : Bay)
    (h : (l.map (fun x => x.bay_id)).Nodup) :
    ((dictInsert l b).map (fun x => x.bay_id)).Nodup := by
  unfold dictInsert
  split_ifs with hc
  · have hkeys : (l.map (fun x => if x.bay_id = b.bay_id then b else x)).map
        (fun x => x.bay_id) = l.map (fun x => x.bay_id) := by
      rw [List.map_map]
      apply List.map_congr_left
      intro x _
      by_cases he : x.bay_id = b.bay_id <;> simp [he]
    rw [hkeys]
    exact h
  · rw [List.map_append, List.nodup_append]
    refine ⟨h, by simp, ?_⟩
    intro a ha hb
    rcases List.mem_map.mp ha with ⟨y, hy, rfl⟩
    simp only [List.map_cons, List.map_nil, List.mem_singleton] at hb
    exact hc (List.any_eq_true.mpr ⟨y, hy, by simp [hb]⟩)

theorem initialize_bays_keys_nodup (pid : String) (levels bpl : ℕ)
    (occR : ℕ → ℕ → Bool) (tR : ℕ → ℕ → ℚ) (bR : ℕ → ℕ → ℤ) :
    ((initialize_bays pid levels bpl occR tR bR).map
      (fun x => x.bay_id)).Nodup := by
  unfold initialize_bays
  have hgen : ∀ (L : List Bay) (init : List Bay),
      (init.map (fun x => x.bay_id)).Nodup →
      ((L.foldl dictInsert init).map (fun x => x.bay_id)).Nodup := by
    intro L
    induction L with
    | nil => exact fun init h => h
    | cons b tl ih => exact fun init h => ih _ (dictInsert_keys_nodup init b h)
  exact hgen _ [] (by simp)

theorem generate_event_keys (s : SimState) (bid : String) (δ : ℚ)
    (decr : Bool) (now : String) (r : Event × SimState)
    (h : generate_event s bid δ decr now = some r) :
    r.2.bays.map (fun b => b.bay_id) = s.bays.map (fun b => b.bay_id) := by
  cases hfind : s.bays.find? (fun b => b.bay_id = bid) with
  | none => rw [generate_event, hfind] at h; cases h
  | some bay =>
    rw [generate_event_some_shape s bid δ decr now bay hfind] at h
    obtain rfl := Option.some.inj h
    exact updateBay_keys s.bays bid _ (fun b => rfl)

theorem vehicle_movement_keys (s : SimState) (idx : ℕ) (r : String × SimState)
    (h : simulate_vehicle_movement s idx = some r) :
    r.2.bays.map (fun b => b.bay_id) = s.bays.map (fun b => b.bay_id) := by
  cases hg : (s.bays.map (fun b => b.bay_id))[idx]? with
  | none => rw [simulate_vehicle_movement, hg] at h; cases h
  | some bid =>
    rw [vehicle_movement_some_shape s idx bid hg] at h
    obtain rfl := Option.some.inj h
    exact updateBay_keys s.bays bid _ (fun b => rfl)

/-- No simulator operation adds or removes dict keys (nor reorders the
map): the key list is invariant. -/
theorem applyOp_keys (s : SimState) (op : SimOp) :
    (applyOp s op).bays.map (fun b => b.bay_id) =
      s.bays.map (fun b => b.bay_id) := by
  cases op with
  | genEvent bid δ decr now =>
    simp only [applyOp]
    cases h : generate_event s bid δ decr now with
    | none => rfl
    | some r =>
      obtain ⟨e, s2⟩ := r
      exact generate_event_keys s bid δ decr now (e, s2) h
  | vehicleMove idx =>
    simp only [applyOp]
    cases h : simulate_vehicle_movement s idx with
    | none => rfl
    | some r =>
      obtain ⟨bid, s2⟩ := r
      exact vehicle_movement_keys s idx (bid, s2) h

theorem reach_keys (s : SimState) (ops : List SimOp) :
    (reach s ops).bays.map (fun b => b.bay_id) =
      s.bays.map (fun b => b.bay_id) := by
  induction ops generalizing s with
  | nil => rfl
  | cons op tl ih => exact (ih (applyOp s op)).trans (applyOp_keys s op)

/-- With duplicate-free keys, the record `find?` located for a key is the
record at any index whose key matches. -/
theorem find?_eq_getElem_of_nodup (l : List Bay) (bid : String) (bay : Bay)
    (hN : (l.map (fun b => b.bay_id)).Nodup)
    (hfind : l.find? (fun b => b.bay_id = bid) = some bay)
    (i : ℕ) (hi : i < l.length) (hid : l[i].bay_id = bid) :
    l[i] = bay := by
  have hbay : bay ∈ l := List.mem_of_find?_eq_some hfind
  have hbid : bay.bay_id = bid := by simpa using List.find?_some hfind
  obtain ⟨j, hj, hje⟩ := List.mem_iff_getElem.mp hbay
  have hij : i = j := by
    have hmap : i < (l.map (fun b => b.bay_id)).length := by simpa using hi
    have hmap2 : j < (l.map (fun b => b.bay_id)).length := by simpa using hj
    have key : (l.map (fun b => b.bay_id))[i] = (l.map (fun b => b.bay_id))[j] := by
      rw [List.getElem_map, List.getElem_map, hid, hje, hbid]
    exact (@List.Nodup.getElem_inj_iff _ _ hN i hmap j hmap2).mp key
  subst hij
  rw [← hje]

/-- A key present in the bay map makes `generate_event` succeed: the dict
lookup cannot raise `KeyError`. -/
theorem generate_event_isSome (s : SimState) (bid : String)
    (h : bid ∈ s.bays.map (fun b => b.bay_id)) (δ : ℚ) (decr : Bool)
    (now : String) : (generate_event s bid δ decr now).isSome = true := by
  rcases List.mem_map.mp h with ⟨b, hb, rfl⟩
  have hfs : (s.bays.find? (fun x => x.bay_id = b.bay_id)).isSome = true :=
    List.find?_isSome.mpr ⟨b, hb, by simp⟩
  cases hfind : s.bays.find? (fun x => x.bay_id = b.bay_id) with
  | none => rw [hfind] at hfs; cases hfs
  | some bay =>
    rw [generate_event_some_shape s b.bay_id δ decr now bay hfind]
    rfl

/-! ## Sample data used by witness theorems -/

/-- A sample in-memory bay record. -/
def sampleBay : Bay :=
  { bay_id := "L1-A-001", parking_id := "PK-CADIZ-01", level := "L1",
    occupied := true, temperature_c := 20, battery_pct := 80 }

/-- A sample persisted document whose temperature average is exactly 0. -/
def zeroTempDoc : BayDoc :=
  { bay_id := "TEST-001", level := "L1", occupied := false,
    temperature_c := some 0, battery_pct := some 50 }

/-- A sample persisted document with an urgent battery level. -/
def urgentDoc : BayDoc :=
  { bay_id := "TEST-002", level := "L1", occupied := true,
    temperature_c := some 25, battery_pct := some 5 }

/-- A sample healthy document. -/
def healthyDoc : BayDoc :=
  { bay_id := "TEST-003", level := "L2", occupied := false,
    temperature_c := some 22, battery_pct := some 90 }

/-! ## Claims -/

/-- **C1** (corrected, counterexample): the claim says an empty bay set
yields `occupancy_rate = 0` "rather than failing with a division-by-zero
error"; in the source `get_parking_status` divides by `total` with no
guard, so the empty bay set raises `ZeroDivisionError` (`none`) and no
status object is returned. -/
theorem C1_empty_bays_raises :
    get_parking_status { bays := [] } = none := rfl

/-- **C1** (amended): `get_parking_status` raises `ZeroDivisionError` on an
empty bay set (the division is unguarded), and for every non-empty bay set
returns `occupancy_rate = round(occupied/total*100, 1)` together with the
total/occupied/free counts. -/
theorem C1_parking_status (s : SimState) :
    (s.bays = [] → get_parking_status s = none) ∧
    (s.bays ≠ [] →
      get_parking_status s = some
        { total_bays := s.bays.length
          occupied := (s.bays.filter (fun b => b.occupied)).length
          free := s.bays.length - (s.bays.filter (fun b => b.occupied)).length
          occupancy_rate :=
            pyRound (((s.bays.filter (fun b => b.occupied)).length : ℚ) /
              (s.bays.length : ℚ) * 100) 1 }) := by
  constructor
  · intro h
    simp [get_parking_status, h]
  · intro h
    have hlen : s.bays.length ≠ 0 := by
      simpa [List.length_eq_zero] using h
    simp [get_parking_status, hlen]

/-- **C1** witness: the amended theorem applied to the empty simulator and
to a one-bay simulator. -/
theorem C1_parking_status_witness :
    get_parking_status { bays := [] } = none ∧
    get_parking_status { bays := [sampleBay] } =
      some { total_bays := 1, occupied := 1, free := 0, occupancy_rate := 100 } := by
  constructor
  · exact (C1_parking_status { bays := [] }).1 rfl
  · have h := (C1_parking_status { bays := [sampleBay] }).2 (by simp)
    rw [h]
    norm_num [sampleBay, pyRound, roundHalfEven]

/-- **C8** (confirmed): the health check answers 503/`unhealthy` exactly
when the store connection is absent or the ping or either count command
raises; otherwise it answers 200/`healthy` carrying the two collection
counts. -/
theorem C8_health_check (db : Option StoreConn) :
    (((health_check db).code = 503 ∧ (health_check db).status = "unhealthy") ↔
      (db = none ∨ ∃ c, db = some c ∧
        (c.ping = none ∨ c.baysCount = none ∨ c.eventsCount = none))) ∧
    (∀ c nb ne, db = some c → c.ping = some () → c.baysCount = some nb →
      c.eventsCount = some ne →
      health_check db = { code := 200, status := "healthy",
                          total_bays := some nb, total_events := some ne }) := by
  constructor
  · rcases db with _ | ⟨p, bc, ec⟩
    · simp [health_check]
    · rcases p with _ | ⟨⟩ <;> rcases bc with _ | nb <;> rcases ec with _ | ne <;>
        simp [health_check]
  · rintro ⟨p, bc, ec⟩ nb ne rfl hp hb he
    rw [show p = some () from hp, show bc = some nb from hb,
      show ec = some ne from he]
    rfl

/-- **C8** witness: the theorem applied to a live connection with concrete
counts and to the absent connection. -/
theorem C8_health_check_witness :
    health_check (some { ping := some (), baysCount := some 20,
                         eventsCount := some 57 }) =
      { code := 200, status := "healthy",
        total_bays := some 20, total_events := some 57 } ∧
    ((health_check none).code = 503 ∧ (health_check none).status = "unhealthy") := by
  constructor
  · exact (C8_health_check _).2 _ 20 57 rfl rfl rfl rfl
  · exact (C8_health_check none).1.mpr (Or.inl rfl)

/-- Summing the indicator of a key over a duplicate-free key list that
contains it gives exactly 1. -/
theorem sum_map_indicator_eq_one (ks : List String) (a : String)
    (hN : ks.Nodup) (ha : a ∈ ks) :
    (ks.map (fun k => if a = k then (1 : ℕ) else 0)).sum = 1 := by
  induction ks with
  | nil => cases ha
  | cons k tl ih =>
    rcases List.nodup_cons.mp hN with ⟨hk, htl⟩
    rcases List.mem_cons.mp ha with h | h
    · subst h
      have hz : (tl.map (fun k => if a = k then (1 : ℕ) else 0)).sum = 0 := by
        apply List.sum_eq_zero
        intro x hx
        rcases List.mem_map.mp hx with ⟨b, hb, rfl⟩
        have hab : a ≠ b := fun e => hk (e ▸ hb)
        simp [hab]
      simp [hz]
    · have hak : a ≠ k := by rintro rfl; exact hk h
      simp [hak, ih htl h]

/-- Grouping a document list by a duplicate-free covering key list
partitions it: the group sizes sum to the list's length. -/
theorem sum_map_filter_level_length (docs : List BayDoc) (ks : List String)
    (hN : ks.Nodup) (hcov : ∀ d ∈ docs, d.level ∈ ks) :
    (ks.map (fun k => (docs.filter (fun d => d.level = k)).length)).sum =
      docs.length := by
  induction docs with
  | nil => simp
  | cons d tl ih =>
    have hd : d.level ∈ ks := hcov d (List.mem_cons_self _ _)
    have hcov2 : ∀ x ∈ tl, x.level ∈ ks :=
      fun x hx => hcov x (List.mem_cons_of_mem _ hx)
    have hsplit :
        (ks.map (fun k => ((d :: tl).filter (fun x => x.level = k)).length)) =
        (ks.map (fun k => (if d.level = k then 1 else 0) +
          (tl.filter (fun x => x.level = k)).length)) := by
      apply List.map_congr_left
      intro k _
      by_cases h : d.level = k <;> simp [List.filter_cons, h, Nat.add_comm]
    rw [hsplit, List.sum_map_add, sum_map_indicator_eq_one ks d.level hN hd,
      ih hcov2]
    simp [Nat.add_comm]

/-- **C5** (confirmed): in the `/api/stats` response the per-level totals
sum to the top-level total, the top-level `occupancy_rate` is
`round(occupied/total*100, 2)` with 0 for an empty store, and `free` is
`total - occupied` (with `occupied ≤ total`). -/
theorem C5_stats_consistency (docs : List BayDoc) :
    ((get_stats docs).levels.map (fun l => l.total)).sum = (get_stats docs).total ∧
    (get_stats docs).occupancy_rate =
      (if 0 < docs.length then
        pyRound (((docs.filter (fun d => d.occupied)).length : ℚ) /
          (docs.length : ℚ) * 100) 2
       else 0) ∧
    (get_stats docs).free = (get_stats docs).total - (get_stats docs).occupied ∧
    (get_stats docs).occupied ≤ (get_stats docs).total := by
  refine ⟨?_, rfl, rfl, ?_⟩
  · have hperm : (sortedLevelKeys docs).Perm (docs.map (fun d => d.level)).dedup :=
      List.perm_insertionSort _ _
    have hN : (sortedLevelKeys docs).Nodup :=
      hperm.nodup_iff.mpr (List.nodup_dedup _)
    have hcov : ∀ d ∈ docs, d.level ∈ sortedLevelKeys docs := by
      intro d hd
      exact hperm.mem_iff.mpr (List.mem_dedup.mpr (List.mem_map_of_mem _ hd))
    have : (get_stats docs).levels.map (fun l => l.total) =
        (sortedLevelKeys docs).map
          (fun k => (docs.filter (fun d => d.level = k)).length) := by
      simp only [get_stats, List.map_map]
      apply List.map_congr_left
      intro k _
      rfl
    rw [this, sum_map_filter_level_length docs _ hN hcov]
    rfl
  · exact List.length_filter_le _ _

theorem mongoAvg_eq_none_iff (xs : List ℚ) : mongoAvg xs = none ↔ xs = [] := by
  unfold mongoAvg
  split_ifs with h <;> simp [h]

theorem pyTruthyRound1_eq_none_iff (o : Option ℚ) :
    pyTruthyRound1 o = none ↔ o = none ∨ o = some 0 := by
  rcases o with _ | a
  · simp [pyTruthyRound1]
  · by_cases h : a = 0 <;> simp [pyTruthyRound1, h]

theorem pyTruthyRound1_of_ne_zero (a : ℚ) (h : a ≠ 0) :
    pyTruthyRound1 (some a) = some (pyRound a 1) := by
  simp [pyTruthyRound1, h]

/-- The per-level entries of `/api/stats` are exactly the formatted group
records of the sorted group keys. -/
theorem get_stats_levels (docs : List BayDoc) :
    (get_stats docs).levels = (sortedLevelKeys docs).map (levelStatsFor docs) :=
  rfl

/-- **C2** (corrected, counterexample): a one-document store on level `L1`
whose temperature is exactly 0 has a defined group average (the metric
group is non-empty and averages to 0), yet the endpoint's
`avg_temperature` is `null` — the source guards with Python truthiness
(`round(x, 1) if x else None`), not with an is-defined test. -/
theorem C2_zero_average_is_null :
    levelStatsFor [zeroTempDoc] "L1" ∈ (get_stats [zeroTempDoc]).levels ∧
    groupTemps ([zeroTempDoc].filter (fun d => d.level = "L1")) = [0] ∧
    mongoAvg (groupTemps ([zeroTempDoc].filter (fun d => d.level = "L1"))) =
      some 0 ∧
    (levelStatsFor [zeroTempDoc] "L1").avg_temperature = none := by
  have hkey : ("L1" : String) ∈ sortedLevelKeys [zeroTempDoc] :=
    (List.perm_insertionSort _ _).mem_iff.mpr
      (List.mem_dedup.mpr (by simp [zeroTempDoc]))
  have hg : groupTemps ([zeroTempDoc].filter (fun d => d.level = "L1")) = [0] := by
    simp [groupTemps, zeroTempDoc]
  have havg : mongoAvg (groupTemps ([zeroTempDoc].filter
      (fun d => d.level = "L1"))) = some 0 := by
    rw [hg]
    norm_num [mongoAvg]
  refine ⟨List.mem_map_of_mem _ hkey, hg, havg, ?_⟩
  show pyTruthyRound1 (mongoAvg (groupTemps ([zeroTempDoc].filter
    (fun d => d.level = "L1")))) = none
  rw [havg]
  simp [pyTruthyRound1]

/-- **C2** (amended): in each per-level entry, `avg_temperature` /
`avg_battery` is `null` exactly when the group average is undefined (the
group is empty of the metric) **or equals 0** (Python truthiness); whenever
the average is defined and non-zero the value rounded to 1 decimal is
returned. -/
theorem C2_level_averages (docs : List BayDoc) (ls : LevelStats)
    (h : ls ∈ (get_stats docs).levels) :
    (ls.avg_temperature = none ↔
      groupTemps (docs.filter (fun d => d.level = ls.level)) = [] ∨
      mongoAvg (groupTemps (docs.filter (fun d => d.level = ls.level))) =
        some 0) ∧
    (∀ a, mongoAvg (groupTemps (docs.filter (fun d => d.level = ls.level))) =
        some a → a ≠ 0 → ls.avg_temperature = some (pyRound a 1)) ∧
    (ls.avg_battery = none ↔
      groupBats (docs.filter (fun d => d.level = ls.level)) = [] ∨
      mongoAvg (groupBats (docs.filter (fun d => d.level = ls.level))) =
        some 0) ∧
    (∀ a, mongoAvg (groupBats (docs.filter (fun d => d.level = ls.level))) =
        some a → a ≠ 0 → ls.avg_battery = some (pyRound a 1)) := by
  rw [get_stats_levels] at h
  obtain ⟨k, hk, rfl⟩ := List.mem_map.mp h
  refine ⟨?_, ?_, ?_, ?_⟩
  · rw [show (levelStatsFor docs k).avg_temperature =
        pyTruthyRound1 (mongoAvg (groupTemps (docs.filter
          (fun d => d.level = (levelStatsFor docs k).level)))) from rfl,
      pyTruthyRound1_eq_none_iff, mongoAvg_eq_none_iff]
  · intro a ha hne
    rw [show (levelStatsFor docs k).avg_temperature =
        pyTruthyRound1 (mongoAvg (groupTemps (docs.filter
          (fun d => d.level = (levelStatsFor docs k).level)))) from rfl,
      ha, pyTruthyRound1_of_ne_zero a hne]
  · rw [show (levelStatsFor docs k).avg_battery =
        pyTruthyRound1 (mongoAvg (groupBats (docs.filter
          (fun d => d.level = (levelStatsFor docs k).level)))) from rfl,
      pyTruthyRound1_eq_none_iff, mongoAvg_eq_none_iff]
  · intro a ha hne
    rw [show (levelStatsFor docs k).avg_battery =
        pyTruthyRound1 (mongoAvg (groupBats (docs.filter
          (fun d => d.level = (levelStatsFor docs k).level)))) from rfl,
      ha, pyTruthyRound1_of_ne_zero a hne]

/-- **C2** witness: on a one-document store with temperature 22, the
amended theorem yields the rounded non-null average. -/
theorem C2_level_averages_witness :
    (levelStatsFor [healthyDoc] "L2").avg_temperature = some (pyRound 22 1) := by
  have hkey : ("L2" : String) ∈ sortedLevelKeys [healthyDoc] :=
    (List.perm_insertionSort _ _).mem_iff.mpr
      (List.mem_dedup.mpr (by simp [healthyDoc]))
  have hmem : levelStatsFor [healthyDoc] "L2" ∈ (get_stats [healthyDoc]).levels := by
    rw [get_stats_levels]
    exact List.mem_map_of_mem _ hkey
  refine (C2_level_averages [healthyDoc] _ hmem).2.1 22 ?_ (by norm_num)
  show mongoAvg (groupTemps ([healthyDoc].filter (fun d => d.level = "L2"))) =
    some 22
  have : groupTemps ([healthyDoc].filter (fun d => d.level = "L2")) = [22] := by
    simp [groupTemps, healthyDoc]
  rw [this]
  norm_num [mongoAvg]

/-! ### C6: the low-battery maintenance endpoint -/

instance : IsTotal BayDoc batteryLe :=
  ⟨fun a b => le_total (a.battery_pct.getD 0) (b.battery_pct.getD 0)⟩

instance : IsTrans BayDoc batteryLe := ⟨fun _ _ _ hab hbc => le_trans hab hbc⟩

theorem queryBatteryLt20_iff (d : BayDoc) :
    queryBatteryLt20 d = true ↔ ∃ b, d.battery_pct = some b ∧ b < 20 := by
  rcases hd : d.battery_pct with _ | b <;> simp [queryBatteryLt20, hd]

/-- Every element of the sorted low-battery selection carries a battery
value below the threshold. -/
theorem mem_low_battery_bays (docs : List BayDoc) (d : BayDoc)
    (h : d ∈ low_battery_bays docs) : ∃ b, d.battery_pct = some b ∧ b < 20 := by
  have hmem : d ∈ docs.filter queryBatteryLt20 :=
    (List.perm_insertionSort _ _).mem_iff.mp h
  exact (queryBatteryLt20_iff d).mp (List.of_mem_filter hmem)

/-- A list of sub-threshold documents is partitioned by the urgent and
high-priority comprehensions. -/
theorem urgent_high_partition (l : List BayDoc)
    (h : ∀ d ∈ l, ∃ b, d.battery_pct = some b ∧ b < 20) :
    (l.filter (fun b => b.battery_pct.getD 0 < 10)).length +
      (l.filter (fun b => 10 ≤ b.battery_pct.getD 0 &&
        b.battery_pct.getD 0 < 20)).length = l.length := by
  induction l with
  | nil => simp
  | cons d tl ih =>
    obtain ⟨b, hb, hlt⟩ := h d (List.mem_cons_self _ _)
    have ih2 := ih (fun x hx => h x (List.mem_cons_of_mem _ hx))
    have hg : d.battery_pct.getD 0 = b := by rw [hb]; rfl
    by_cases h10 : b < 10
    · simp only [List.filter_cons, hg]
      rw [if_pos (by simpa using h10),
        if_neg (by simp only [Bool.and_eq_true, decide_eq_true_eq]; omega)]
      simp only [List.length_cons]
      omega
    · simp only [List.filter_cons, hg]
      rw [if_neg (by simpa using h10),
        if_pos (by simp only [Bool.and_eq_true, decide_eq_true_eq]; omega)]
      simp only [List.length_cons]
      omega

/-- **C6** (confirmed): in the low-battery response the urgent and
high-priority counts sum to the total, urgent items have battery < 10,
high-priority items have 10 ≤ battery < 20, and the selection is exactly
the documents with battery < 20 (a permutation of that filter), sorted
ascending by battery. -/
theorem C6_low_battery (docs : List BayDoc) :
    (get_low_battery_bays docs).urgent_count +
      (get_low_battery_bays docs).high_priority_count =
      (get_low_battery_bays docs).total_count ∧
    (∀ d ∈ (get_low_battery_bays docs).urgent,
      ∃ b, d.battery_pct = some b ∧ b < 10) ∧
    (∀ d ∈ (get_low_battery_bays docs).high_priority,
      ∃ b, d.battery_pct = some b ∧ 10 ≤ b ∧ b < 20) ∧
    (low_battery_bays docs).Perm (docs.filter queryBatteryLt20) ∧
    List.Sorted batteryLe (low_battery_bays docs) ∧
    (∀ d ∈ low_battery_bays docs, ∃ b, d.battery_pct = some b ∧ b < 20) := by
  refine ⟨?_, ?_, ?_, List.perm_insertionSort _ _,
    List.sorted_insertionSort _ _, mem_low_battery_bays docs⟩
  · exact urgent_high_partition _ (mem_low_battery_bays docs)
  · intro d hd
    have hlow : d ∈ low_battery_bays docs := List.mem_of_mem_filter hd
    obtain ⟨b, hb, _⟩ := mem_low_battery_bays docs d hlow
    have hcond := List.of_mem_filter hd
    rw [show d.battery_pct.getD 0 = b from by rw [hb]; rfl] at hcond
    exact ⟨b, hb, by simpa using hcond⟩
  · intro d hd
    have hlow : d ∈ low_battery_bays docs := List.mem_of_mem_filter hd
    obtain ⟨b, hb, _⟩ := mem_low_battery_bays docs d hlow
    have hcond := List.of_mem_filter hd
    rw [show d.battery_pct.getD 0 = b from by rw [hb]; rfl] at hcond
    simp only [Bool.and_eq_true, decide_eq_true_eq] at hcond
    exact ⟨b, hb, hcond.1, hcond.2⟩

/-- **C6** witness: the theorem applied to a two-document store with one
urgent bay. -/
theorem C6_low_battery_witness :
    (get_low_battery_bays [urgentDoc, healthyDoc]).urgent_count +
      (get_low_battery_bays [urgentDoc, healthyDoc]).high_priority_count =
      (get_low_battery_bays [urgentDoc, healthyDoc]).total_count ∧
    (∃ b, urgentDoc.battery_pct = some b ∧ b < 10) := by
  refine ⟨(C6_low_battery [urgentDoc, healthyDoc]).1, ?_⟩
  exact (C6_low_battery [urgentDoc, healthyDoc]).2.1 urgentDoc (by decide)

/-- **C3** (confirmed): from any state reachable from `_initialize_bays`
(whose battery draws lie in `[60, 100]`), one `generate_event` call leaves
every bay's `battery_pct` unchanged or decremented by exactly 1, and never
increases it. -/
theorem C3_battery_monotone (pid : String) (levels bpl : ℕ)
    (occR : ℕ → ℕ → Bool) (tR : ℕ → ℕ → ℚ) (bR : ℕ → ℕ → ℤ)
    (hb : ∀ l b, 60 ≤ bR l b ∧ bR l b ≤ 100)
    (ops : List SimOp) (bid : String) (δ : ℚ) (decr : Bool) (now : String)
    (r : Event × SimState)
    (hgen : generate_event (reach (mkSimulator pid levels bpl occR tR bR) ops)
      bid δ decr now = some r) :
    r.2.bays.length =
      (reach (mkSimulator pid levels bpl occR tR bR) ops).bays.length ∧
    ∀ i (hi : i < (reach (mkSimulator pid levels bpl occR tR bR) ops).bays.length)
      (hi2 : i < r.2.bays.length),
      (r.2.bays[i].battery_pct =
        (reach (mkSimulator pid levels bpl occR tR bR) ops).bays[i].battery_pct ∨
       r.2.bays[i].battery_pct =
        (reach (mkSimulator pid levels bpl occR tR bR) ops).bays[i].battery_pct - 1) ∧
      r.2.bays[i].battery_pct ≤
        (reach (mkSimulator pid levels bpl occR tR bR) ops).bays[i].battery_pct := by
  set s := reach (mkSimulator pid levels bpl occR tR bR) ops with hs_def
  have hN : (s.bays.map (fun b => b.bay_id)).Nodup := by
    rw [hs_def, reach_keys]
    exact initialize_bays_keys_nodup pid levels bpl occR tR bR
  have hInv : BatteryInv s :=
    reach_preserves_batteryInv _ ops
      (mkSimulator_batteryInv pid levels bpl occR tR bR hb)
  cases hfind : s.bays.find? (fun b => b.bay_id = bid) with
  | none => rw [generate_event, hfind] at hgen; cases hgen
  | some bay =>
    rw [generate_event_some_shape s bid δ decr now bay hfind] at hgen
    obtain rfl := Option.some.inj hgen
    have hbay := hInv bay (List.mem_of_find?_eq_some hfind)
    refine ⟨updateBay_length _ _ _, ?_⟩
    intro i hi hi2
    rw [getElem_updateBay s.bays bid _ i hi hi2]
    by_cases he : s.bays[i].bay_id = bid
    · rw [if_pos he, find?_eq_getElem_of_nodup s.bays bid bay hN hfind i hi he]
      cases decr with
      | false => exact ⟨Or.inl rfl, le_refl _⟩
      | true =>
        show (max 20 (bay.battery_pct - 1) = bay.battery_pct ∨
          max 20 (bay.battery_pct - 1) = bay.battery_pct - 1) ∧
          max 20 (bay.battery_pct - 1) ≤ bay.battery_pct
        omega
    · rw [if_neg he]
      exact ⟨Or.inl rfl, le_refl _⟩

/-- **C3** witness: one decrementing `generate_event` call on a freshly
initialized 1×1 simulator. -/
theorem C3_battery_monotone_witness :
    (∀ l b : ℕ, 60 ≤ (fun _ _ => (80 : ℤ)) l b ∧
      (fun _ _ => (80 : ℤ)) l b ≤ 100) ∧
    ∃ r, generate_event (reach (mkSimulator "PK-CADIZ-01" 1 1
        (fun _ _ => false) (fun _ _ => (20 : ℚ)) (fun _ _ => (80 : ℤ))) [])
        "L1-A-001" 0 true "t" = some r ∧
      r.2.bays.length = (reach (mkSimulator "PK-CADIZ-01" 1 1
        (fun _ _ => false) (fun _ _ => (20 : ℚ)) (fun _ _ => (80 : ℤ)))
        []).bays.length := by
  have hfind : (reach (mkSimulator "PK-CADIZ-01" 1 1 (fun _ _ => false)
      (fun _ _ => (20 : ℚ)) (fun _ _ => (80 : ℤ))) []).bays.find?
      (fun b => b.bay_id = "L1-A-001") = some
      { bay_id := "L1-A-001", parking_id := "PK-CADIZ-01", level := "L1",
        occupied := false, temperature_c := pyRound 20 1,
        battery_pct := 80 } := by
    rfl
  have heq := generate_event_some_shape _ "L1-A-001" 0 true "t" _ hfind
  refine ⟨fun l b => ⟨by norm_num, by norm_num⟩, _, heq, ?_⟩
  exact (C3_battery_monotone "PK-CADIZ-01" 1 1 (fun _ _ => false)
    (fun _ _ => (20 : ℚ)) (fun _ _ => (80 : ℤ))
    (fun l b => ⟨by norm_num, by norm_num⟩) [] "L1-A-001" 0 true "t" _ heq).1

/-- **C4** (confirmed): from any reachable state of a simulator initialized
with the source's random ranges, every stored bay and every generated
event's metrics satisfy `15 ≤ temperature_c ≤ 35` and
`0 ≤ battery_pct ≤ 100`, and the bounds persist in the post-event state. -/
theorem C4_metric_bounds (pid : String) (levels bpl : ℕ)
    (occR : ℕ → ℕ → Bool) (tR : ℕ → ℕ → ℚ) (bR : ℕ → ℕ → ℤ)
    (ht : ∀ l b, 18 ≤ tR l b ∧ tR l b ≤ 28)
    (hb : ∀ l b, 60 ≤ bR l b ∧ bR l b ≤ 100)
    (ops : List SimOp) :
    (∀ b ∈ (reach (mkSimulator pid levels bpl occR tR bR) ops).bays,
      15 ≤ b.temperature_c ∧ b.temperature_c ≤ 35 ∧
      0 ≤ b.battery_pct ∧ b.battery_pct ≤ 100) ∧
    (∀ bid δ decr now r,
      generate_event (reach (mkSimulator pid levels bpl occR tR bR) ops)
        bid δ decr now = some r →
      (15 ≤ r.1.metrics.temperature_c ∧ r.1.metrics.temperature_c ≤ 35 ∧
       0 ≤ r.1.metrics.battery_pct ∧ r.1.metrics.battery_pct ≤ 100) ∧
      ∀ b ∈ r.2.bays,
        15 ≤ b.temperature_c ∧ b.temperature_c ≤ 35 ∧
        0 ≤ b.battery_pct ∧ b.battery_pct ≤ 100) := by
  have hS : StateBounds (reach (mkSimulator pid levels bpl occR tR bR) ops) :=
    reach_preserves_bounds _ ops
      (mkSimulator_bounds pid levels bpl occR tR bR ht hb)
  constructor
  · intro b hbm
    obtain ⟨h1, h2, h3, h4⟩ := hS b hbm
    exact ⟨h1, h2, by linarith, h4⟩
  · intro bid δ decr now r hr
    obtain ⟨⟨h1, h2, h3, h4⟩, hS2⟩ :=
      generate_event_preserves_bounds _ bid δ decr now r hr hS
    refine ⟨⟨h1, h2, by linarith, h4⟩, ?_⟩
    intro b hbm
    obtain ⟨g1, g2, g3, g4⟩ := hS2 b hbm
    exact ⟨g1, g2, by linarith, g4⟩

/-- **C4** witness: metric bounds of the event generated on a freshly
initialized 1×1 simulator. -/
theorem C4_metric_bounds_witness :
    ∃ r, generate_event (reach (mkSimulator "PK-CADIZ-01" 1 1
        (fun _ _ => false) (fun _ _ => (20 : ℚ)) (fun _ _ => (80 : ℤ))) [])
        "L1-A-001" 0 true "t" = some r ∧
      (15 ≤ r.1.metrics.temperature_c ∧ r.1.metrics.temperature_c ≤ 35 ∧
       0 ≤ r.1.metrics.battery_pct ∧ r.1.metrics.battery_pct ≤ 100) := by
  have hfind : (reach (mkSimulator "PK-CADIZ-01" 1 1 (fun _ _ => false)
      (fun _ _ => (20 : ℚ)) (fun _ _ => (80 : ℤ))) []).bays.find?
      (fun b => b.bay_id = "L1-A-001") = some
      { bay_id := "L1-A-001", parking_id := "PK-CADIZ-01", level := "L1",
        occupied := false, temperature_c := pyRound 20 1,
        battery_pct := 80 } := by
    rfl
  have heq := generate_event_some_shape _ "L1-A-001" 0 true "t" _ hfind
  refine ⟨_, heq, ?_⟩
  exact ((C4_metric_bounds "PK-CADIZ-01" 1 1 (fun _ _ => false)
    (fun _ _ => (20 : ℚ)) (fun _ _ => (80 : ℤ))
    (fun l b => ⟨by norm_num, by norm_num⟩)
    (fun l b => ⟨by norm_num, by norm_num⟩) []).2
    "L1-A-001" 0 true "t" _ heq).1

/-- **C7** (confirmed): `generate_event` leaves every bay's `occupied`
flag (and every bay other than the target entirely) unchanged, while
`simulate_vehicle_movement` flips the `occupied` flag of exactly the
chosen bay, leaves its other fields and all other bays unchanged, and
returns the chosen bay's id. -/
theorem C7_occupancy_frame (s : SimState) :
    (∀ bid δ decr now r, generate_event s bid δ decr now = some r →
      r.2.bays.length = s.bays.length ∧
      ∀ i (hi : i < s.bays.length) (hi2 : i < r.2.bays.length),
        r.2.bays[i].occupied = s.bays[i].occupied ∧
        r.2.bays[i].bay_id = s.bays[i].bay_id ∧
        r.2.bays[i].parking_id = s.bays[i].parking_id ∧
        r.2.bays[i].level = s.bays[i].level ∧
        (s.bays[i].bay_id ≠ bid → r.2.bays[i] = s.bays[i])) ∧
    ((s.bays.map (fun b => b.bay_id)).Nodup →
      ∀ idx r, simulate_vehicle_movement s idx = some r →
        ∃ hidx : idx < s.bays.length,
          r.1 = s.bays[idx].bay_id ∧
          r.2.bays.length = s.bays.length ∧
          (∀ hidx2 : idx < r.2.bays.length,
            r.2.bays[idx].occupied = !s.bays[idx].occupied ∧
            r.2.bays[idx].bay_id = s.bays[idx].bay_id ∧
            r.2.bays[idx].parking_id = s.bays[idx].parking_id ∧
            r.2.bays[idx].level = s.bays[idx].level ∧
            r.2.bays[idx].temperature_c = s.bays[idx].temperature_c ∧
            r.2.bays[idx].battery_pct = s.bays[idx].battery_pct) ∧
          (∀ i (hi : i < s.bays.length) (hi2 : i < r.2.bays.length),
            i ≠ idx → r.2.bays[i] = s.bays[i])) := by
  constructor
  · intro bid δ decr now r hr
    cases hfind : s.bays.find? (fun b => b.bay_id = bid) with
    | none => rw [generate_event, hfind] at hr; cases hr
    | some bay =>
      rw [generate_event_some_shape s bid δ decr now bay hfind] at hr
      obtain rfl := Option.some.inj hr
      refine ⟨updateBay_length _ _ _, ?_⟩
      intro i hi hi2
      rw [getElem_updateBay s.bays bid _ i hi hi2]
      by_cases he : s.bays[i].bay_id = bid
      · rw [if_pos he]
        exact ⟨rfl, rfl, rfl, rfl, fun hne => absurd he hne⟩
      · rw [if_neg he]
        exact ⟨rfl, rfl, rfl, rfl, fun _ => rfl⟩
  · intro hN idx r hr
    cases hg : (s.bays.map (fun b => b.bay_id))[idx]? with
    | none => rw [simulate_vehicle_movement, hg] at hr; cases hr
    | some bid =>
      rw [vehicle_movement_some_shape s idx bid hg] at hr
      obtain rfl := Option.some.inj hr
      obtain ⟨hlt, hbid⟩ := List.getElem?_eq_some_iff.mp hg
      have hidx : idx < s.bays.length := by simpa using hlt
      have hkey : s.bays[idx].bay_id = bid := by
        rw [List.getElem_map] at hbid
        exact hbid
      refine ⟨hidx, hkey.symm, updateBay_length _ _ _, ?_, ?_⟩
      · intro hidx2
        rw [getElem_updateBay s.bays bid _ idx hidx hidx2, if_pos hkey]
        exact ⟨rfl, rfl, rfl, rfl, rfl, rfl⟩
      · intro i hi hi2 hne
        rw [getElem_updateBay s.bays bid _ i hi hi2]
        have hne2 : s.bays[i].bay_id ≠ bid := by
          intro hcontra
          apply hne
          have hmapi : i < (s.bays.map (fun b => b.bay_id)).length := by
            simpa using hi
          apply (@List.Nodup.getElem_inj_iff _ _ hN i hmapi idx hlt).mp
          rw [List.getElem_map, List.getElem_map, hcontra, hkey]
        rw [if_neg hne2]

/-- **C7** witness: a vehicle movement on a one-bay simulator flips the
single bay and returns its id. -/
theorem C7_occupancy_frame_witness :
    ∃ r, simulate_vehicle_movement { bays := [sampleBay] } 0 = some r ∧
      ∃ h : 0 < (SimState.mk [sampleBay]).bays.length,
        r.1 = (SimState.mk [sampleBay]).bays[0].bay_id ∧
        r.2.bays.length = (SimState.mk [sampleBay]).bays.length := by
  have hg : (({ bays := [sampleBay] } : SimState).bays.map
      (fun b => b.bay_id))[0]? = some sampleBay.bay_id := rfl
  have heq := vehicle_movement_some_shape { bays := [sampleBay] } 0 _ hg
  obtain ⟨hidx, h1, h2, _⟩ :=
    (C7_occupancy_frame { bays := [sampleBay] }).2 (by simp) 0 _ heq
  exact ⟨_, heq, hidx, h1, h2⟩

/-- **C10** (confirmed): on every reachable state with at least one bay,
`simulate_vehicle_movement` returns a key of the bay map, every operation
preserves the key set, and the run loop's subsequent
`generate_event(bay_id)` lookup on the mutated state succeeds. -/
theorem C10_loop_safety (pid : String) (levels bpl : ℕ)
    (occR : ℕ → ℕ → Bool) (tR : ℕ → ℕ → ℚ) (bR : ℕ → ℕ → ℤ)
    (ops : List SimOp) (idx : ℕ)
    (hidx : idx < (reach (mkSimulator pid levels bpl occR tR bR) ops).bays.length) :
    ∃ r, simulate_vehicle_movement
        (reach (mkSimulator pid levels bpl occR tR bR) ops) idx = some r ∧
      r.1 ∈ (reach (mkSimulator pid levels bpl occR tR bR) ops).bays.map
        (fun b => b.bay_id) ∧
      r.2.bays.map (fun b => b.bay_id) =
        (reach (mkSimulator pid levels bpl occR tR bR) ops).bays.map
          (fun b => b.bay_id) ∧
      (∀ op, (applyOp (reach (mkSimulator pid levels bpl occR tR bR) ops)
          op).bays.map (fun b => b.bay_id) =
        (reach (mkSimulator pid levels bpl occR tR bR) ops).bays.map
          (fun b => b.bay_id)) ∧
      ∀ δ decr now, (generate_event r.2 r.1 δ decr now).isSome = true := by
  set s := reach (mkSimulator pid levels bpl occR tR bR) ops with hs_def
  have hmap : idx < (s.bays.map (fun b => b.bay_id)).length := by simpa using hidx
  have hg : (s.bays.map (fun b => b.bay_id))[idx]? =
      some ((s.bays.map (fun b => b.bay_id))[idx]) :=
    List.getElem?_eq_getElem hmap
  have hkeys := vehicle_movement_keys s idx _ (vehicle_movement_some_shape s idx _ hg)
  refine ⟨_, vehicle_movement_some_shape s idx _ hg, List.getElem_mem hmap,
    hkeys, applyOp_keys s, ?_⟩
  intro δ decr now
  apply generate_event_isSome
  rw [hkeys]
  exact List.getElem_mem hmap

/-- **C10** witness: a movement then an event generation on a freshly
initialized 1×1 simulator, with the returned id a key of the map. -/
theorem C10_loop_safety_witness :
    (0 < (reach (mkSimulator "PK-CADIZ-01" 1 1 (fun _ _ => true)
      (fun _ _ => (20 : ℚ)) (fun _ _ => (80 : ℤ))) []).bays.length) ∧
    ∃ r, simulate_vehicle_movement (reach (mkSimulator "PK-CADIZ-01" 1 1
        (fun _ _ => true) (fun _ _ => (20 : ℚ)) (fun _ _ => (80 : ℤ))) [])
        0 = some r ∧
      r.1 ∈ (reach (mkSimulator "PK-CADIZ-01" 1 1 (fun _ _ => true)
        (fun _ _ => (20 : ℚ)) (fun _ _ => (80 : ℤ))) []).bays.map
        (fun b => b.bay_id) := by
  have h0 : 0 < (reach (mkSimulator "PK-CADIZ-01" 1 1 (fun _ _ => true)
      (fun _ _ => (20 : ℚ)) (fun _ _ => (80 : ℤ))) []).bays.length := by
    show 0 < 1
    norm_num
  obtain ⟨r, h1, h2, _⟩ := C10_loop_safety "PK-CADIZ-01" 1 1 (fun _ _ => true)
    (fun _ _ => (20 : ℚ)) (fun _ _ => (80 : ℤ)) [] 0 h0
  exact ⟨h0, r, h1, h2⟩

/-- **C9** (confirmed): `publish_event` is a total boolean-valued function
of the broker outcome — `True` exactly when the broker acknowledged within
the bounded wait, `False` exactly when a `KafkaError` (broker/network
failure) was raised, which the handler catches instead of propagating. -/
theorem C9_publish_event (o : KafkaOutcome) :
    (publish_event o = true ↔ ∃ m, o = KafkaOutcome.ack m) ∧
    (publish_event o = false ↔ ∃ e, o = KafkaOutcome.kafkaError e) := by
  cases o <;> simp [publish_event]

end SmartParking
